import Mathlib

/-!
Verification of the dranet node-local DRA network driver core.

Shallow embedding of the Go sources: Go strings are modelled as lists of
characters (`GoStr`), Go errors as the inductive `GoErr` (with `Option GoErr`
standing for a possibly-nil `error` value), and external kernel/netlink calls
as explicit oracle records passed to the embedded functions.
-/

namespace DraNet

/-! ## Go errors

Go `error` values produced by `fmt.Errorf` and `errors.Join` are modelled
structurally so that properties such as "the error mentions field X" are
expressible.  A nil Go error is `Option.none`. -/

/-- Structural model of a Go error value: plain messages, the strict-decoding
unknown-field error of sigs.k8s.io/json (which carries the offending field
path), `fmt.Errorf` wrapping with a format prefix, and binary combination as
produced by `errors.Join` on a list. -/
inductive GoErr : Type where
  | msg : String → GoErr
  | unknownField : String → GoErr
  | wrap : String → GoErr → GoErr
  | comb : GoErr → GoErr → GoErr
deriving DecidableEq, Repr

/-- Model of `errors.Join(errs...)`: nil when the list is empty, otherwise a
single error combining all members. -/
def joinErrors : List GoErr → Option GoErr
  | [] => none
  | e :: es => some (es.foldl GoErr.comb e)

/-- Whether the error tree mentions the unknown field with path `p`. -/
def GoErr.mentionsField : GoErr → String → Bool
  | .msg _, _ => false
  | .unknownField q, p => q = p
  | .wrap _ e, p => e.mentionsField p
  | .comb a b, p => a.mentionsField p || b.mentionsField p

/-! ## Go strings -/

/-- Go strings, modelled as lists of characters. -/
abbrev GoStr := List Char

/-- Pointwise action of the replacer of pkg/inventory/pci.go. -/
def replChar (c : Char) : Char :=
  if c = ':' || c = '.' then '-' else c

/-- Model of `strings.NewReplacer(":", "-", ".", "-").Replace`: every colon
and every dot is replaced by a dash (single-character patterns, so the
replacer acts pointwise). -/
def replaceColonDot (s : GoStr) : GoStr :=
  s.map replChar

/-- Model of `strings.Split(s, sep)` for a single-character separator:
splits at every occurrence, preserving empty segments. -/
def splitOnChar (sep : Char) : GoStr → List GoStr
  | [] => [[]]
  | c :: cs =>
    if c = sep then [] :: splitOnChar sep cs
    else
      match splitOnChar sep cs with
      | [] => [[c]]
      | p :: ps => (c :: p) :: ps

/-! ## PCI address normalization (pkg/inventory/pci.go) -/

/-- The constant `normalizedNamePrefix = "net1"` of pkg/inventory/pci.go. -/
def normalizedNamePref : GoStr := [ 'n', 'e', 't', '1' ]

/-- Embedding of `NormalizePCIAddress` (pkg/inventory/pci.go): empty input
maps to empty output, otherwise the result is "net1-" followed by the address
with every colon and dot replaced by a dash. -/
def NormalizePCIAddress (pciAddress : GoStr) : GoStr :=
  if pciAddress = [] then []
  else normalizedNamePref ++ '-' :: replaceColonDot pciAddress

/-- Embedding of `DeNormalizePCIAddress` (pkg/inventory/pci.go): requires the
"net1-" marker, strips it, splits the remainder on dashes, and on exactly four
parts rebuilds `p0:p1:p2.p3`; every failure returns the empty string. -/
def DeNormalizePCIAddress (normalizedAddress : GoStr) : GoStr :=
  if normalizedAddress = [] then []
  else if ¬ (normalizedNamePref ++ [ '-' ]).isPrefixOf normalizedAddress then []
  else
    let pciAddress := normalizedAddress.drop (normalizedNamePref.length + 1)
    match splitOnChar '-' pciAddress with
    | [p0, p1, p2, p3] => p0 ++ ':' :: p1 ++ ':' :: p2 ++ '.' :: p3
    | _ => []

/-- A hexadecimal character. -/
def isHexDigitChar (c : Char) : Bool :=
  c.isDigit || (('a' ≤ c && c ≤ 'f') || ('A' ≤ c && c ≤ 'F'))

/-- A well-formed BDF component: a non-empty run of hexadecimal characters. -/
def hexComp (p : GoStr) : Bool :=
  decide (p ≠ []) && p.all isHexDigitChar

/-- A PCI address in BDF notation built from its four components:
`domain:bus:device.function`. -/
def mkBDF (d b dv f : GoStr) : GoStr :=
  d ++ ':' :: (b ++ ':' :: (dv ++ '.' :: f))

/-! ## Models of the Go standard-library address parsers

The validation code calls `net.ParseIP`, `net.ParseCIDR`, `netip.ParsePrefix`
and `net.ParseMAC` from the Go standard library.  These are external to the
repository; they are modelled here as executable functions following the
documented stdlib behaviour (IPv4 dotted quads without leading zeros, IPv6
with at most one double-colon compression; the IPv4-in-IPv6 textual form and
the dotted MAC forms are not modelled). -/

/-- Decimal value of a string of digits. -/
def decVal (s : GoStr) : Nat :=
  s.foldl (fun acc c => acc * 10 + (c.toNat - 48)) 0

/-- Hexadecimal value of a string of hex digits. -/
def hexVal (s : GoStr) : Nat :=
  s.foldl
    (fun acc c =>
      acc * 16 +
        (if c.isDigit then c.toNat - 48
         else if 'a' ≤ c && c ≤ 'f' then c.toNat - 87
         else c.toNat - 55))
    0

/-- One dotted-quad field of an IPv4 address: one to three digits, no leading
zero (Go 1.17 semantics), value at most 255. -/
def parseV4Octet (s : GoStr) : Option Nat :=
  if s = [] then none
  else if ¬ (s.all Char.isDigit) then none
  else if 1 < s.length && s.head? = some '0' then none
  else if 3 < s.length then none
  else if decVal s ≤ 255 then some (decVal s) else none

/-- IPv4 dotted-quad parse: exactly four octet fields separated by dots. -/
def parseIPv4 (s : GoStr) : Option (List Nat) :=
  match splitOnChar '.' s with
  | [a, b, c, d] =>
    match parseV4Octet a, parseV4Octet b, parseV4Octet c, parseV4Octet d with
    | some x0, some x1, some x2, some x3 => some [x0, x1, x2, x3]
    | _, _, _, _ => none
  | _ => none

/-- One 16-bit group of an IPv6 address: one to four hex digits. -/
def parseHexGroup (g : GoStr) : Option Nat :=
  if g = [] then none
  else if ¬ (g.all isHexDigitChar) then none
  else if 4 < g.length then none
  else some (hexVal g)

/-- Splits a string at its first double colon, when present. -/
def splitDoubleColon : GoStr → Option (GoStr × GoStr)
  | [] => none
  | [_] => none
  | c1 :: c2 :: rest =>
    if c1 = ':' && c2 = ':' then some ([], rest)
    else
      match splitDoubleColon (c2 :: rest) with
      | some (l, r) => some (c1 :: l, r)
      | none => none

/-- Parses a colon-separated run of hex groups; the empty string denotes no
groups at all (used for the sides of a double colon). -/
def parseGroupRun (s : GoStr) : Option (List Nat) :=
  if s = [] then some []
  else (splitOnChar ':' s).mapM parseHexGroup

/-- IPv6 textual parse: either eight colon-separated groups, or at most seven
groups with a single double-colon compression standing for the missing
zero groups. -/
def parseIPv6 (s : GoStr) : Option (List Nat) :=
  match splitDoubleColon s with
  | some (l, r) =>
    if (splitDoubleColon r).isSome then none
    else
      match parseGroupRun l, parseGroupRun r with
      | some lg, some rg =>
        if lg.length + rg.length ≤ 7 then
          some (lg ++ List.replicate (8 - lg.length - rg.length) 0 ++ rg)
        else none
      | _, _ => none
  | none =>
    match (splitOnChar ':' s).mapM parseHexGroup with
    | some gs => if gs.length = 8 then some gs else none
    | none => none

/-- An IP address value: four octets or eight 16-bit groups. -/
inductive IPAddr : Type where
  | v4 : List Nat → IPAddr
  | v6 : List Nat → IPAddr
deriving DecidableEq, Repr

/-- Bit length of an address family. -/
def IPAddr.bits : IPAddr → Nat
  | .v4 _ => 32
  | .v6 _ => 128

/-- Model of `net.ParseIP` / `netip.ParseAddr`: IPv4 form first, otherwise
IPv6 form, otherwise failure. -/
def netParseIP (s : String) : Option IPAddr :=
  match parseIPv4 s.data with
  | some o => some (.v4 o)
  | none =>
    match parseIPv6 s.data with
    | some g => some (.v6 g)
    | none => none

/-- Prefix length for `net.ParseCIDR`: a non-empty digit run (Go dtoi, which
tolerates leading zeros) whose value fits the address family. -/
def parseCIDRBits (m : GoStr) (bits : Nat) : Option Nat :=
  if m = [] then none
  else if ¬ (m.all Char.isDigit) then none
  else if decVal m ≤ bits then some (decVal m) else none

/-- Model of `net.ParseCIDR`: address, slash, prefix length. -/
def netParseCIDR (s : String) : Option (IPAddr × Nat) :=
  match splitOnChar '/' s.data with
  | [a, m] =>
    match netParseIP ⟨a⟩ with
    | some ip =>
      match parseCIDRBits m ip.bits with
      | some n => some (ip, n)
      | none => none
    | none => none
  | _ => none

/-- Prefix length for `netip.ParsePrefix`: like `parseCIDRBits` but with the
netip rules rejecting leading zeros and more than three digits. -/
def parsePrefixBits (m : GoStr) (bits : Nat) : Option Nat :=
  if m = [] then none
  else if ¬ (m.all Char.isDigit) then none
  else if 1 < m.length && m.head? = some '0' then none
  else if 3 < m.length then none
  else if decVal m ≤ bits then some (decVal m) else none

/-- Model of `netip.ParsePrefix`: address, slash, prefix length with strict
digit rules. -/
def netipParsePrefix (s : String) : Option (IPAddr × Nat) :=
  match splitOnChar '/' s.data with
  | [a, m] =>
    match netParseIP ⟨a⟩ with
    | some ip =>
      match parsePrefixBits m ip.bits with
      | some n => some (ip, n)
      | none => none
    | none => none
  | _ => none

/-- Model of `net.ParseMAC` restricted to the colon- and dash-separated
two-hex-digit group forms with 6, 8 or 20 groups. -/
def netParseMAC (s : String) : Option (List Nat) :=
  let groupsOf := fun (sep : Char) =>
    (splitOnChar sep s.data).mapM
      (fun g =>
        if g.length = 2 && g.all isHexDigitChar then some (hexVal g) else none)
  match groupsOf ':' with
  | some gs => if gs.length = 6 || gs.length = 8 || gs.length = 20 then some gs else none
  | none =>
    match groupsOf '-' with
    | some gs => if gs.length = 6 || gs.length = 8 || gs.length = 20 then some gs else none
    | none => none

/-! ## Opaque configuration model

JSON documents are modelled structurally; a `RawExtension` byte payload is
abstracted by its JSON parse class (empty, malformed, or a parsed document),
since the byte-level lexer belongs to the external JSON library. -/

/-- A JSON document.  Numbers are modelled as integers (the schema has no
fractional fields). -/
inductive Json : Type where
  | null : Json
  | bool : Bool → Json
  | num : Int → Json
  | str : String → Json
  | arr : List Json → Json
  | obj : List (String × Json) → Json

/-- Modelled from the spec: the route entry of the opaque configuration
schema (section 6 of the spec: destination, gateway, source, scope, table).
The Go struct declaration is not part of the provided sources; its field set
follows the spec schema and the uses in ValidateConfig and
applyRoutingConfig. -/
structure RouteConfig : Type where
  Destination : String
  Gateway : String
  Source : String
  Scope : Nat
  Table : Int
deriving DecidableEq, Repr

/-- Modelled from the spec: the interface entry of the opaque configuration
schema (name, addresses, mtu, hardwareAddr, gso/gro sizes,
disableEbpfPrograms). -/
structure InterfaceConfig : Type where
  Name : String
  Addresses : List String
  MTU : Int
  HardwareAddr : String
  GSOMaxSize : Int
  GROMaxSize : Int
  GSOIPv4MaxSize : Int
  GROIPv4MaxSize : Int
  DisableEbpfPrograms : Bool
deriving DecidableEq, Repr

/-- Modelled from the spec: a neighbor entry (destination, hardwareAddr). -/
structure NeighborConfig : Type where
  Destination : String
  HardwareAddr : String
deriving DecidableEq, Repr

/-- Modelled from the spec: a policy-rule entry (priority, table, source,
destination). -/
structure RuleConfig : Type where
  Priority : Int
  Table : Int
  Source : String
  Destination : String
deriving DecidableEq, Repr

/-- Modelled from the spec: the ethtool entry (feature toggles). -/
structure EthtoolConfig : Type where
  Features : List (String × Bool)
deriving DecidableEq, Repr

/-- Modelled from the spec: the opaque per-device network configuration. -/
structure NetworkConfig : Type where
  Interface : InterfaceConfig
  Routes : List RouteConfig
  Neighbors : List NeighborConfig
  Rules : List RuleConfig
  Ethtool : EthtoolConfig
deriving DecidableEq, Repr

/-- Zero value of the interface entry. -/
def defaultInterfaceConfig : InterfaceConfig :=
  ⟨"", [], 0, "", 0, 0, 0, 0, false⟩

/-- Zero value of a route entry. -/
def defaultRouteConfig : RouteConfig :=
  ⟨"", "", "", 0, 0⟩

/-- Zero value of the whole configuration. -/
def defaultNetworkConfig : NetworkConfig :=
  ⟨defaultInterfaceConfig, [], [], [], ⟨[]⟩⟩

/-! ## Model of sigs.k8s.io/json UnmarshalStrict

The library first performs an ordinary unmarshal (type errors are fatal), and
on success reports strict errors for fields of the document that the schema
does not define, with paths such as routes[0].gateways.  Duplicate-key strict
errors are not modelled (no claim concerns them); for an ordinary unmarshal
the last occurrence of a key wins. -/

/-- Field lookup in a JSON object, last occurrence winning. -/
def lookupField (fs : List (String × Json)) (k : String) : Option Json :=
  (fs.reverse.find? (fun kv => kv.1 = k)).map (fun kv => kv.2)

/-- Unmarshal a JSON value into a Go string (null keeps the zero value). -/
def decodeString : Json → Except GoErr String
  | .str s => .ok s
  | .null => .ok ""
  | _ => .error (.msg "json: cannot unmarshal value into Go value of type string")

/-- Unmarshal a JSON value into a Go int. -/
def decodeInt : Json → Except GoErr Int
  | .num n => .ok n
  | .null => .ok 0
  | _ => .error (.msg "json: cannot unmarshal value into Go value of type int")

/-- Unmarshal a JSON value into a Go bool. -/
def decodeBool : Json → Except GoErr Bool
  | .bool b => .ok b
  | .null => .ok false
  | _ => .error (.msg "json: cannot unmarshal value into Go value of type bool")

/-- Unmarshal a JSON value into a netlink scope (a Go uint8). -/
def decodeScope : Json → Except GoErr Nat
  | .num n =>
    if 0 ≤ n && n ≤ 255 then .ok n.toNat
    else .error (.msg "json: cannot unmarshal number into Go value of type uint8")
  | .null => .ok 0
  | _ => .error (.msg "json: cannot unmarshal value into Go value of type uint8")

/-- Unmarshal a JSON value into a Go string slice. -/
def decodeStringList : Json → Except GoErr (List String)
  | .arr es => es.mapM decodeString
  | .null => .ok []
  | _ => .error (.msg "json: cannot unmarshal value into Go value of type []string")

/-- Unmarshal one field of an object, falling back to a default when the
field is absent. -/
def decodeFieldD {α : Type} (fs : List (String × Json)) (k : String)
    (dec : Json → Except GoErr α) (dflt : α) : Except GoErr α :=
  match lookupField fs k with
  | some j => dec j
  | none => .ok dflt

/-- Unmarshal a route entry. -/
def decodeRoute : Json → Except GoErr RouteConfig
  | .obj fs => do
    let dst ← decodeFieldD fs "destination" decodeString ""
    let gw ← decodeFieldD fs "gateway" decodeString ""
    let src ← decodeFieldD fs "source" decodeString ""
    let scope ← decodeFieldD fs "scope" decodeScope 0
    let table ← decodeFieldD fs "table" decodeInt 0
    pure ⟨dst, gw, src, scope, table⟩
  | .null => .ok defaultRouteConfig
  | _ => .error (.msg "json: cannot unmarshal value into Go value of type RouteConfig")

/-- Unmarshal a neighbor entry. -/
def decodeNeighbor : Json → Except GoErr NeighborConfig
  | .obj fs => do
    let dst ← decodeFieldD fs "destination" decodeString ""
    let hw ← decodeFieldD fs "hardwareAddr" decodeString ""
    pure ⟨dst, hw⟩
  | .null => .ok ⟨"", ""⟩
  | _ => .error (.msg "json: cannot unmarshal value into Go value of type NeighborConfig")

/-- Unmarshal a policy-rule entry. -/
def decodeRule : Json → Except GoErr RuleConfig
  | .obj fs => do
    let prio ← decodeFieldD fs "priority" decodeInt 0
    let table ← decodeFieldD fs "table" decodeInt 0
    let src ← decodeFieldD fs "source" decodeString ""
    let dst ← decodeFieldD fs "destination" decodeString ""
    pure ⟨prio, table, src, dst⟩
  | .null => .ok ⟨0, 0, "", ""⟩
  | _ => .error (.msg "json: cannot unmarshal value into Go value of type RuleConfig")

/-- Unmarshal the interface entry. -/
def decodeInterface : Json → Except GoErr InterfaceConfig
  | .obj fs => do
    let name ← decodeFieldD fs "name" decodeString ""
    let addrs ← decodeFieldD fs "addresses" decodeStringList []
    let mtu ← decodeFieldD fs "mtu" decodeInt 0
    let hw ← decodeFieldD fs "hardwareAddr" decodeString ""
    let gso ← decodeFieldD fs "gsoMaxSize" decodeInt 0
    let gro ← decodeFieldD fs "groMaxSize" decodeInt 0
    let gso4 ← decodeFieldD fs "gsoIPv4MaxSize" decodeInt 0
    let gro4 ← decodeFieldD fs "groIPv4MaxSize" decodeInt 0
    let ebpf ← decodeFieldD fs "disableEbpfPrograms" decodeBool false
    pure ⟨name, addrs, mtu, hw, gso, gro, gso4, gro4, ebpf⟩
  | .null => .ok defaultInterfaceConfig
  | _ => .error (.msg "json: cannot unmarshal value into Go value of type InterfaceConfig")

/-- Unmarshal a list-valued field. -/
def decodeListOf {α : Type} (dec : Json → Except GoErr α) :
    Json → Except GoErr (List α)
  | .arr es => es.mapM dec
  | .null => .ok []
  | _ => .error (.msg "json: cannot unmarshal value into Go slice")

/-- Unmarshal the ethtool entry (the features map has free-form keys). -/
def decodeEthtool : Json → Except GoErr EthtoolConfig
  | .obj fs =>
    match lookupField fs "features" with
    | some (.obj ffs) => do
      let feats ← ffs.mapM (fun kv => do
        let b ← decodeBool kv.2
        pure (kv.1, b))
      pure ⟨feats⟩
    | some .null => .ok ⟨[]⟩
    | some _ => .error (.msg "json: cannot unmarshal value into Go value of type map")
    | none => .ok ⟨[]⟩
  | .null => .ok ⟨[]⟩
  | _ => .error (.msg "json: cannot unmarshal value into Go value of type EthtoolConfig")

/-- Ordinary (non-strict) unmarshal of the opaque configuration document. -/
def unmarshalNetworkConfig : Json → Except GoErr NetworkConfig
  | .obj fs => do
    let iface ← decodeFieldD fs "interface" decodeInterface defaultInterfaceConfig
    let routes ← decodeFieldD fs "routes" (decodeListOf decodeRoute) []
    let neighs ← decodeFieldD fs "neighbors" (decodeListOf decodeNeighbor) []
    let rules ← decodeFieldD fs "rules" (decodeListOf decodeRule) []
    let ethtool ← decodeFieldD fs "ethtool" decodeEthtool ⟨[]⟩
    pure ⟨iface, routes, neighs, rules, ethtool⟩
  | .null => .ok defaultNetworkConfig
  | _ => .error (.msg "json: cannot unmarshal value into Go value of type NetworkConfig")

/-- Schema keys of the top-level object. -/
def knownTopKeys : List String :=
  ["interface", "routes", "neighbors", "rules", "ethtool"]

/-- Schema keys of the interface object. -/
def knownInterfaceKeys : List String :=
  ["name", "addresses", "mtu", "hardwareAddr", "gsoMaxSize", "groMaxSize",
   "gsoIPv4MaxSize", "groIPv4MaxSize", "disableEbpfPrograms"]

/-- Schema keys of a route object. -/
def knownRouteKeys : List String :=
  ["destination", "gateway", "source", "scope", "table"]

/-- Schema keys of a neighbor object. -/
def knownNeighborKeys : List String :=
  ["destination", "hardwareAddr"]

/-- Schema keys of a rule object. -/
def knownRuleKeys : List String :=
  ["priority", "table", "source", "destination"]

/-- Schema keys of the ethtool object. -/
def knownEthtoolKeys : List String :=
  ["features"]

/-- Unknown-field paths contributed by one object value under a path
syntax element. -/
def objUnknownPaths (pre : String) (known : List String) : Json → List String
  | .obj fs => fs.filterMap (fun kv => if known.contains kv.1 then none else some (pre ++ kv.1))
  | _ => []

/-- Unknown-field paths of an array of objects, indexed from `i`. -/
def arrUnknownPathsFrom (base : String) (known : List String) :
    Nat → List Json → List String
  | _, [] => []
  | i, e :: es =>
    objUnknownPaths (base ++ "[" ++ toString i ++ "].") known e ++
      arrUnknownPathsFrom base known (i + 1) es

/-- Unknown-field paths of an optional array field. -/
def arrFieldUnknownPaths (base : String) (known : List String) :
    Option Json → List String
  | some (.arr es) => arrUnknownPathsFrom base known 0 es
  | _ => []

/-- Unknown-field paths of an optional object field. -/
def objFieldUnknownPaths (pre : String) (known : List String) :
    Option Json → List String
  | some j => objUnknownPaths pre known j
  | none => []

/-- Strict errors of sigs.k8s.io/json: the paths of all fields of the
document that the configuration schema does not define. -/
def strictPaths : Json → List String
  | .obj fs =>
    fs.filterMap (fun kv => if knownTopKeys.contains kv.1 then none else some kv.1) ++
    objFieldUnknownPaths "interface." knownInterfaceKeys (lookupField fs "interface") ++
    arrFieldUnknownPaths "routes" knownRouteKeys (lookupField fs "routes") ++
    arrFieldUnknownPaths "neighbors" knownNeighborKeys (lookupField fs "neighbors") ++
    arrFieldUnknownPaths "rules" knownRuleKeys (lookupField fs "rules") ++
    objFieldUnknownPaths "ethtool." knownEthtoolKeys (lookupField fs "ethtool")
  | _ => []

/-- Whether one object value holds a key outside its schema key set. -/
def objHasUnknownKey (known : List String) : Json → Bool
  | .obj fs => fs.any (fun kv => ¬ known.contains kv.1)
  | _ => false

/-- Whether an optional array field holds an element with an unknown key. -/
def arrFieldHasUnknownKey (known : List String) : Option Json → Bool
  | some (.arr es) => es.any (objHasUnknownKey known)
  | _ => false

/-- Whether an optional object field holds an unknown key. -/
def objFieldHasUnknownKey (known : List String) : Option Json → Bool
  | some j => objHasUnknownKey known j
  | none => false

/-- The payload contains a field that the configuration schema does not
define, at any of the schema positions. -/
def containsUnknownField : Json → Bool
  | .obj fs =>
    fs.any (fun kv => ¬ knownTopKeys.contains kv.1) ||
    objFieldHasUnknownKey knownInterfaceKeys (lookupField fs "interface") ||
    arrFieldHasUnknownKey knownRouteKeys (lookupField fs "routes") ||
    arrFieldHasUnknownKey knownNeighborKeys (lookupField fs "neighbors") ||
    arrFieldHasUnknownKey knownRuleKeys (lookupField fs "rules") ||
    objFieldHasUnknownKey knownEthtoolKeys (lookupField fs "ethtool")
  | _ => false

/-! ## ValidateConfig (package apis version, src/unnamed/part_000) -/

/-- Per-address check of ValidateConfig: each element of
interface.addresses must parse with netip.ParsePrefix. -/
def validateAddressErrs (ips : List String) : List GoErr :=
  ips.filterMap (fun ip =>
    if (netipParsePrefix ip).isSome then none
    else some (.msg ("invalid IP in CIDR format " ++ ip)))

/-- Per-route checks of ValidateConfig, in source order: destination empty or
unparsable, scope not Universe/Link, gateway unparsable when present or
missing when required. -/
def validateRouteErrs (i : Nat) (r : RouteConfig) : List GoErr :=
  (if r.Destination = "" then
    [GoErr.msg ("route " ++ toString i ++ ": destination cannot be empty")]
   else if (netParseCIDR r.Destination).isNone && (netParseIP r.Destination).isNone then
    [GoErr.msg ("route " ++ toString i ++ ": invalid destination IP or CIDR " ++ r.Destination)]
   else []) ++
  (if r.Scope ≠ 0 ∧ r.Scope ≠ 253 then
    [GoErr.msg ("route " ++ toString i ++
      ": invalid scope only Link (253) or Universe (0) allowed")]
   else []) ++
  (if r.Gateway ≠ "" then
    (if (netParseIP r.Gateway).isNone then
      [GoErr.msg ("route " ++ toString i ++ ": invalid gateway IP " ++ r.Gateway)]
     else [])
   else if r.Scope ≠ 253 then
    [GoErr.msg ("route " ++ toString i ++ ": for destination " ++ r.Destination ++
      " must have a gateway")]
   else [])

/-- The route loop of ValidateConfig with its running index. -/
def validateRoutesErrs : Nat → List RouteConfig → List GoErr
  | _, [] => []
  | i, r :: rs => validateRouteErrs i r ++ validateRoutesErrs (i + 1) rs

/-- All field-validation errors of ValidateConfig, collected in source
order. -/
def validateNetworkConfig (c : NetworkConfig) : List GoErr :=
  validateAddressErrs c.Interface.Addresses ++ validateRoutesErrs 0 c.Routes

/-- A RawExtension byte payload, abstracted by its JSON parse class. -/
inductive RawBytes : Type where
  | empty : RawBytes
  | malformed : RawBytes
  | json : Json → RawBytes

/-- Model of runtime.RawExtension: the Raw byte slice may be nil. -/
structure RawExtension : Type where
  Raw : Option RawBytes

/-- Embedding of `ValidateConfig` (src/unnamed/part_000, package apis): nil
or empty payloads validate to nothing; a fatal unmarshal error or any strict
unknown-field error yields a nil configuration and a wrapped error; otherwise
the parsed configuration is returned together with the joined field errors. -/
def ValidateConfig (raw : Option RawExtension) : Option NetworkConfig × Option GoErr :=
  match raw with
  | none => (none, none)
  | some re =>
    match re.Raw with
    | none => (none, none)
    | some .empty => (none, none)
    | some .malformed =>
      (none, some (.wrap "failed to unmarshal JSON data" (.msg "invalid character")))
    | some (.json v) =>
      match unmarshalNetworkConfig v with
      | .error e => (none, some (.wrap "failed to unmarshal JSON data" e))
      | .ok c =>
        match strictPaths v with
        | [] => (some c, joinErrors (validateNetworkConfig c))
        | p :: ps =>
          (none, some (.wrap "failed to unmarshal strict JSON data"
            ((ps.map GoErr.unknownField).foldl GoErr.comb (GoErr.unknownField p))))

/-! ## Namespace effector (pkg/driver/netnamespace.go)

The functions below touch the kernel through netlink.  The namespace handle
obtained from `netns.GetFromPath` + `nlwrap.NewHandleAt` + `LinkByName` and
the kernel responses are modelled as an oracle record `NetnsHandle`; an
`Except` argument stands for the early-exit error paths of the setup calls.
`RouteList` is modelled as a constant per-call view of the table (the claims
considered never interleave a successful add with a later listing). -/

/-- Numeric value of an IP address. -/
def addrToNat : IPAddr → Nat
  | .v4 o => o.foldl (fun a x => a * 256 + x) 0
  | .v6 g => g.foldl (fun a x => a * 65536 + x) 0

/-- Octets of a 32-bit value. -/
def natToV4 (n : Nat) : List Nat :=
  [n / 2 ^ 24 % 256, n / 2 ^ 16 % 256, n / 2 ^ 8 % 256, n % 256]

/-- Sixteen-bit groups of a 128-bit value. -/
def natToV6 (n : Nat) : List Nat :=
  [n / 2 ^ 112 % 65536, n / 2 ^ 96 % 65536, n / 2 ^ 80 % 65536, n / 2 ^ 64 % 65536,
   n / 2 ^ 48 % 65536, n / 2 ^ 32 % 65536, n / 2 ^ 16 % 65536, n % 65536]

/-- Keep the first `bits` bits of an address, zeroing the host part (the
masking performed by `net.ParseCIDR` when it returns the network). -/
def maskAddr (ip : IPAddr) (bits : Nat) : IPAddr :=
  match ip with
  | .v4 _ => .v4 (natToV4 (addrToNat ip / 2 ^ (32 - bits) * 2 ^ (32 - bits)))
  | .v6 _ => .v6 (natToV6 (addrToNat ip / 2 ^ (128 - bits) * 2 ^ (128 - bits)))

/-- The network of a parsed CIDR, as returned by `net.ParseCIDR`. -/
def maskedCIDR (p : IPAddr × Nat) : IPAddr × Nat :=
  (maskAddr p.1 p.2, p.2)

/-- The fields of a netlink route that applyRoutingConfig reads or writes. -/
structure NetRoute : Type where
  LinkIndex : Nat
  Scope : Nat
  Table : Int
  Dst : Option (IPAddr × Nat)
  Gw : Option IPAddr
  Src : Option IPAddr
deriving DecidableEq, Repr

/-- The fields of a netlink neighbor entry that applyNeighborConfig writes
(state 128 is NUD_PERMANENT). -/
structure NetNeigh : Type where
  LinkIndex : Nat
  State : Nat
  IP : IPAddr
  HardwareAddr : List Nat
deriving DecidableEq, Repr

/-- The fields of a netlink policy rule that applyRulesConfig writes. -/
structure NetRule : Type where
  Priority : Int
  Table : Int
  Src : Option (IPAddr × Nat)
  Dst : Option (IPAddr × Nat)
deriving DecidableEq, Repr

/-- Outcome of a kernel add operation: success, failure with EEXIST (the case
`errors.Is(err, syscall.EEXIST)`), or another failure. -/
inductive AddResult : Type where
  | ok : AddResult
  | eexist : AddResult
  | err : GoErr → AddResult
deriving DecidableEq, Repr

/-- Oracle for one opened namespace netlink handle: the resolved link index,
the route-listing result (none models a listing failure) and the responses of
the kernel add operations. -/
structure NetnsHandle : Type where
  linkIndex : Nat
  routeList : Option (List NetRoute)
  routeAdd : NetRoute → AddResult
  neighAdd : NetNeigh → AddResult
  ruleAdd : NetRule → AddResult

/-- The duplicate check of applyRoutingConfig: destination strings equal with
both non-nil, equal gateway, source and scope. -/
def routeMatches (existingRoute r : NetRoute) : Bool :=
  existingRoute.Dst.isSome && r.Dst.isSome &&
    decide (existingRoute.Dst = r.Dst) && decide (existingRoute.Gw = r.Gw) &&
    decide (existingRoute.Src = r.Src) && decide (existingRoute.Scope = r.Scope)

/-- The netlink route built for one configured route (given a parsed
destination). -/
def mkNetRoute (h : NetnsHandle) (route : RouteConfig) (dst : IPAddr × Nat) : NetRoute :=
  ⟨h.linkIndex, route.Scope, route.Table, some (maskedCIDR dst),
   netParseIP route.Gateway,
   if route.Source = "" then none else netParseIP route.Source⟩

/-- One iteration of the route loop of applyRoutingConfig: parse the
destination, list the table, skip when a matching route exists, otherwise add
and tolerate EEXIST. -/
def routeIterErrs (h : NetnsHandle) (route : RouteConfig) : List GoErr :=
  match netParseCIDR route.Destination with
  | none => [GoErr.msg ("invalid CIDR address: " ++ route.Destination)]
  | some dst =>
    let r := mkNetRoute h route dst
    match h.routeList with
    | none => [GoErr.msg "failed to list routes for interface"]
    | some existingRoutes =>
      if existingRoutes.any (fun existingRoute => routeMatches existingRoute r) then []
      else
        match h.routeAdd r with
        | .ok => []
        | .eexist => []
        | .err e => [GoErr.wrap "fail to add route" e]

/-- The sort of applyRoutingConfig: `slices.SortFunc` with comparator
`int(b.Scope) - int(a.Scope)`, i.e. any order sorted by non-increasing scope;
modelled by insertion sort on that relation. -/
def sortRoutesByScope (routeConfig : List RouteConfig) : List RouteConfig :=
  List.insertionSort (fun a b => b.Scope ≤ a.Scope) routeConfig

/-- Embedding of `applyRoutingConfig` (pkg/driver/netnamespace.go): setup
errors propagate; otherwise the routes are sorted link-scope first and
processed in order, the collected errors joined. -/
def applyRoutingConfig (h : Except GoErr NetnsHandle) (routeConfig : List RouteConfig) :
    Option GoErr :=
  match h with
  | .error e => some e
  | .ok hd =>
    joinErrors (((sortRoutesByScope routeConfig).map (routeIterErrs hd)).flatten)

/-- One iteration of the neighbor loop of applyNeighborConfig. -/
def neighIterErrs (h : NetnsHandle) (neigh : NeighborConfig) : List GoErr :=
  match netParseIP neigh.Destination with
  | none => [GoErr.msg ("invalid ip address: " ++ neigh.Destination)]
  | some ip =>
    match netParseMAC neigh.HardwareAddr with
    | none => [GoErr.msg ("invalid mac address: " ++ neigh.HardwareAddr)]
    | some mac =>
      match h.neighAdd ⟨h.linkIndex, 128, ip, mac⟩ with
      | .ok => []
      | .eexist => []
      | .err e => [GoErr.wrap "failed to add permanent neighbor entry" e]

/-- Embedding of `applyNeighborConfig` (pkg/driver/netnamespace.go). -/
def applyNeighborConfig (h : Except GoErr NetnsHandle) (neighConfig : List NeighborConfig) :
    Option GoErr :=
  match h with
  | .error e => some e
  | .ok hd => joinErrors ((neighConfig.map (neighIterErrs hd)).flatten)

/-- One iteration of the rule loop of applyRulesConfig. -/
def ruleIterErrs (h : NetnsHandle) (ruleCfg : RuleConfig) : List GoErr :=
  if ruleCfg.Source ≠ "" ∧ (netParseCIDR ruleCfg.Source).isNone then
    [GoErr.msg ("invalid CIDR address: " ++ ruleCfg.Source)]
  else if ruleCfg.Destination ≠ "" ∧ (netParseCIDR ruleCfg.Destination).isNone then
    [GoErr.msg ("invalid CIDR address: " ++ ruleCfg.Destination)]
  else
    let src := if ruleCfg.Source = "" then none
      else (netParseCIDR ruleCfg.Source).map maskedCIDR
    let dst := if ruleCfg.Destination = "" then none
      else (netParseCIDR ruleCfg.Destination).map maskedCIDR
    match h.ruleAdd ⟨ruleCfg.Priority, ruleCfg.Table, src, dst⟩ with
    | .ok => []
    | .eexist => []
    | .err e => [GoErr.wrap "failed to add rule" e]

/-- Embedding of `applyRulesConfig` (pkg/driver/netnamespace.go). -/
def applyRulesConfig (h : Except GoErr NetnsHandle) (rulesConfig : List RuleConfig) :
    Option GoErr :=
  match h with
  | .error e => some e
  | .ok hd => joinErrors ((rulesConfig.map (ruleIterErrs hd)).flatten)

/-- A configured route is already present in the listed table. -/
def routeAlreadyExists (h : NetnsHandle) (route : RouteConfig) : Bool :=
  match netParseCIDR route.Destination, h.routeList with
  | some dst, some existingRoutes =>
    existingRoutes.any (fun ex => routeMatches ex (mkNetRoute h route dst))
  | _, _ => false

/-! ## RunPodSandbox (pkg/driver/driver.go)

The NRI hook resolves the pod claims, then loops over the allocation results
of each claim; RDMA links are moved first (an RDMA failure skips the device),
then the netdev is moved (a netdev failure returns immediately).  The rdmamap
lookup and the two attach operations are modelled by the oracle
`AttachOracle`; a claim entry that fails the type assertion or has a nil
allocation is modelled as `none`. -/

/-- One allocation result of a claim: the owning driver and the device. -/
structure AllocationResult : Type where
  Driver : String
  Device : String
deriving DecidableEq, Repr

/-- Oracle for the external attach operations of RunPodSandbox: the RDMA
device associated to a netdev (empty string when there is none, as the error
of GetRdmaDeviceForNetdevice is dropped), and the results of nsAttachRdmadev
and nsAttachNetdev for the target namespace. -/
structure AttachOracle : Type where
  rdmaForDev : String → String
  attachRdma : String → Option GoErr
  attachNetdev : String → Option GoErr

/-- Observable outcome of the RunPodSandbox attach loop: successfully moved
RDMA links, netdev attach attempts in order, successfully moved netdevs, and
the returned error. -/
structure SandboxOutcome : Type where
  rdmaAttached : List String
  netAttempts : List String
  netAttached : List String
  err : Option GoErr
deriving DecidableEq, Repr

/-- The inner results loop of RunPodSandbox (driver.go lines 228-263): skip
results of other drivers; move the RDMA link first, skipping the device on
failure; move the netdev, returning its error immediately on failure. -/
def runResults (o : AttachOracle) (driverName : String) :
    List AllocationResult → SandboxOutcome
  | [] => ⟨[], [], [], none⟩
  | r :: rest =>
    if r.Driver ≠ driverName then runResults o driverName rest
    else if o.rdmaForDev r.Device ≠ "" then
      match o.attachRdma (o.rdmaForDev r.Device) with
      | some _ => runResults o driverName rest
      | none =>
        match o.attachNetdev r.Device with
        | some e => ⟨[o.rdmaForDev r.Device], [r.Device], [], some e⟩
        | none =>
          let out := runResults o driverName rest
          ⟨o.rdmaForDev r.Device :: out.rdmaAttached, r.Device :: out.netAttempts,
           r.Device :: out.netAttached, out.err⟩
    else
      match o.attachNetdev r.Device with
      | some e => ⟨[], [r.Device], [], some e⟩
      | none =>
        let out := runResults o driverName rest
        ⟨out.rdmaAttached, r.Device :: out.netAttempts, r.Device :: out.netAttached, out.err⟩

/-- Sequencing of the claims loop: an error from the earlier claim aborts the
handler (the remaining claims never run); otherwise the later outcome
follows. -/
def seqOutcome (out rest : SandboxOutcome) : SandboxOutcome :=
  match out.err with
  | some _ => out
  | none =>
    ⟨out.rdmaAttached ++ rest.rdmaAttached, out.netAttempts ++ rest.netAttempts,
     out.netAttached ++ rest.netAttached, rest.err⟩

/-- The outer claims loop of RunPodSandbox: entries failing the type
assertion or with a nil allocation are skipped; a netdev error returned by
the inner loop aborts the whole handler. -/
def runClaims (o : AttachOracle) (driverName : String) :
    List (Option (List AllocationResult)) → SandboxOutcome
  | [] => ⟨[], [], [], none⟩
  | none :: rest => runClaims o driverName rest
  | some results :: rest =>
    seqOutcome (runResults o driverName results) (runClaims o driverName rest)

/-- Embedding of `RunPodSandbox` (pkg/driver/driver.go): no claims or a
host-network pod are no-ops; otherwise the claims loop runs. -/
def RunPodSandbox (o : AttachOracle) (driverName : String)
    (claims : List (Option (List AllocationResult))) (ns : String) : SandboxOutcome :=
  if claims.isEmpty then ⟨[], [], [], none⟩
  else if ns = "" then ⟨[], [], [], none⟩
  else runClaims o driverName claims

/-! ## Inventory refresh (pkg/inventory/pci.go, net.go)

DB.Run enumerates PCI devices with ghw, keeps the network class, converts
each to a published device, and notifies when the list or the previous list
was non-empty.  The sysfs interface lookup is an oracle.  The default-gateway
interface computation of net.go is embedded to express claim C1. -/

/-- The fields of a ghw PCI device that DB.Run reads. -/
structure PCIDevice : Type where
  Address : GoStr
  ClassID : GoStr
deriving DecidableEq, Repr

/-- Embedding of `isNetworkDevice` (pci.go): the class identifier starts with
"02". -/
def isNetworkDevice (dev : PCIDevice) : Bool :=
  ([ '0', '2' ] : GoStr).isPrefixOf dev.ClassID

/-- Oracle for `GetNetworkInterface`: the first entry of the sysfs net/
directory of a PCI device, when present. -/
structure SysfsOracle : Type where
  netInterfaceFor : GoStr → Option String

/-- Embedding of `pciToDRAdev` restricted to the identity-bearing parts: the
published name is the normalized PCI address and the interface-name attribute
comes from the sysfs lookup (the remaining attributes do not bear on the
claims about catalog membership). -/
structure Device : Type where
  Name : GoStr
  IfName : Option String
deriving DecidableEq, Repr

/-- Construction of the published device for one PCI device. -/
def pciToDRAdev (sys : SysfsOracle) (dev : PCIDevice) : Device :=
  ⟨NormalizePCIAddress dev.Address, sys.netInterfaceFor dev.Address⟩

/-- The catalog built by one refresh of `DB.Run` (pci.go lines 181-188):
every PCI device of network class is converted and retained; no other filter
is applied. -/
def dbRunBuildDevices (sys : SysfsOracle) (pciDevs : List PCIDevice) : List Device :=
  (pciDevs.filter isNetworkDevice).map (pciToDRAdev sys)

/-- The fields of a netlink route that getDefaultGwInterfaces reads
(MultiPath holds the gateways of the next hops). -/
structure NLRoute : Type where
  Family : Int
  Dst : Option (IPAddr × Nat)
  Gw : Option IPAddr
  LinkIndex : Nat
  MultiPath : List (Option IPAddr)
deriving DecidableEq, Repr

/-- All-zero address. -/
def IPAddr.isUnspecified : IPAddr → Bool
  | .v4 o => o.all (fun x => x = 0)
  | .v6 g => g.all (fun x => x = 0)

/-- Set insertion for the interface name set. -/
def insertName (n : String) (acc : List String) : List String :=
  if acc.contains n then acc else acc ++ [n]

/-- Embedding of `getDefaultGwInterfaces` (pkg/inventory/net.go): for every
route of the main table of family v4 (2) or v6 (10) whose destination is nil
or unspecified, record the name of the outgoing link when the route (or one
of its next hops) has a gateway.  `links` models `LinkByIndex`. -/
def getDefaultGwInterfaces (routes : List NLRoute) (links : Nat → Option String) :
    List String :=
  routes.foldl
    (fun acc r =>
      if r.Family ≠ 2 ∧ r.Family ≠ 10 then acc
      else if (match r.Dst with
               | some (ip, _) => ¬ ip.isUnspecified
               | none => false : Bool) = true then acc
      else
        let acc1 :=
          if r.MultiPath = [] then
            match r.Gw with
            | none => acc
            | some _ =>
              match links r.LinkIndex with
              | none => acc
              | some name => insertName name acc
          else acc
        r.MultiPath.foldl
          (fun a nh =>
            match nh with
            | none => a
            | some _ =>
              match links r.LinkIndex with
              | none => a
              | some name => insertName name a)
          acc1)
    []

/-- One refresh tick of DB.Run after the device list is built (pci.go lines
197-202): emits when the list is non-empty or the previous emitting state
held devices, updating the hasDevices flag only in that case. -/
def refreshStep (hasDevices : Bool) (devices : List Device) : Bool × Bool :=
  if 0 < devices.length ∨ hasDevices = true then (true, decide (0 < devices.length))
  else (false, hasDevices)

/-- The emissions of a run of refreshes from a given hasDevices state. -/
def runRefreshes (hasDevices : Bool) : List (List Device) → List Bool
  | [] => []
  | ds :: rest =>
    (refreshStep hasDevices ds).1 :: runRefreshes (refreshStep hasDevices ds).2 rest

/-! ## Concrete inputs used by counterexamples and witnesses -/

/-- Route scope is universe or link, destination present and parsable,
gateway parsable when present and required when the scope is not link: the
per-route acceptance condition of ValidateConfig. -/
def routeFieldOk (r : RouteConfig) : Bool :=
  (decide (r.Destination ≠ "") &&
    ((netParseCIDR r.Destination).isSome || (netParseIP r.Destination).isSome)) &&
  (decide (r.Scope = 0) || decide (r.Scope = 253)) &&
  (if r.Gateway = "" then decide (r.Scope = 253) else (netParseIP r.Gateway).isSome)

/-- Replace the MTU of a configuration, keeping everything else. -/
def setMTU (c : NetworkConfig) (m : Int) : NetworkConfig :=
  ⟨⟨c.Interface.Name, c.Interface.Addresses, m, c.Interface.HardwareAddr,
    c.Interface.GSOMaxSize, c.Interface.GROMaxSize, c.Interface.GSOIPv4MaxSize,
    c.Interface.GROIPv4MaxSize, c.Interface.DisableEbpfPrograms⟩,
   c.Routes, c.Neighbors, c.Rules, c.Ethtool⟩

/-- Whether a possibly-nil error mentions a field path. -/
def errMentions : Option GoErr → String → Bool
  | none, _ => false
  | some e, p => e.mentionsField p

/-- A payload whose only defect is a negative MTU. -/
def mtuNegativeDoc : Json :=
  .obj [("interface", .obj [("name", .str "eth0"), ("mtu", .num (-5))])]

/-- The configuration parsed from `mtuNegativeDoc`. -/
def mtuNegativeCfg : NetworkConfig :=
  ⟨⟨"eth0", [], -5, "", 0, 0, 0, 0, false⟩, [], [], [], ⟨[]⟩⟩

/-- A payload with the unknown field gateways inside the first route (the
misspelling exercised by the repository test). -/
def unknownFieldDoc : Json :=
  .obj [("interface", .obj [("name", .str "eth0")]),
        ("routes", .arr [.obj [("gateways", .str "192.168.1.1")]])]

/-- The configuration the ordinary unmarshal yields for `unknownFieldDoc`. -/
def unknownFieldCfg : NetworkConfig :=
  ⟨⟨"eth0", [], 0, "", 0, 0, 0, 0, false⟩, [defaultRouteConfig], [], [], ⟨[]⟩⟩

/-- A valid payload holding a link-scope route without gateway and a
universe-scope route with one. -/
def linkScopeDoc : Json :=
  .obj [("interface", .obj [("name", .str "eth0"),
          ("addresses", .arr [.str "192.168.1.10/24"])]),
        ("routes", .arr [.obj [("destination", .str "10.0.5.1/32"), ("scope", .num 253)],
          .obj [("destination", .str "10.0.0.0/8"), ("gateway", .str "10.0.5.1")]])]

/-- The configuration parsed from `linkScopeDoc`. -/
def linkScopeCfg : NetworkConfig :=
  ⟨⟨"eth0", ["192.168.1.10/24"], 0, "", 0, 0, 0, 0, false⟩,
   [⟨"10.0.5.1/32", "", "", 253, 0⟩, ⟨"10.0.0.0/8", "10.0.5.1", "", 0, 0⟩],
   [], [], ⟨[]⟩⟩

/-- Attach oracle of the C2 counterexample: no RDMA devices, the first device
fails to move, the second would succeed. -/
def failFirstOracle : AttachOracle :=
  ⟨fun _ => "",
   fun _ => none,
   fun d => if d = "net1-0000-8a-00-0" then some (.msg "device or resource busy") else none⟩

/-- Claims of the C2 counterexample: one claim allocating two devices of this
driver. -/
def twoDeviceClaims : List (Option (List AllocationResult)) :=
  [some [⟨"dra.net", "net1-0000-8a-00-0"⟩, ⟨"dra.net", "net1-0000-8b-00-0"⟩]]

/-- Routes of the C1 failing input: one IPv4 default route via 192.168.1.1
out of link 1. -/
def defaultRouteTable : List NLRoute :=
  [⟨2, none, some (.v4 [192, 168, 1, 1]), 1, []⟩]

/-- Link table of the C1 failing input: link 1 is eth0. -/
def linkTable1 (i : Nat) : Option String :=
  if i = 1 then some "eth0" else none

/-- Sysfs oracle of the C1 failing input: PCI device 0000:00:04.0 backs
eth0. -/
def sysfsEth0 : SysfsOracle :=
  ⟨fun a => if a = ("0000:00:04.0".data : GoStr) then some "eth0" else none⟩

/-- PCI device list of the C1 failing input: one network-class device at
0000:00:04.0. -/
def pciDevsEth0 : List PCIDevice :=
  [⟨("0000:00:04.0".data : GoStr), ("0200".data : GoStr)⟩]

/-- A device value for refresh demonstrations. -/
def demoDevice : Device :=
  ⟨("net1-0000-8a-00-0".data : GoStr), some "eth1"⟩

/-- Three refreshes: devices found, then twice none. -/
def demoRefreshes : List (List Device) :=
  [[demoDevice], [], []]

/-- A namespace handle whose kernel accepts everything. -/
def allOkHandle : NetnsHandle :=
  ⟨1, some [], fun _ => .ok, fun _ => .ok, fun _ => .ok⟩

/-- A namespace handle whose kernel reports EEXIST on every add. -/
def allExistHandle : NetnsHandle :=
  ⟨7, some [], fun _ => .eexist, fun _ => .eexist, fun _ => .eexist⟩

/-- An attach oracle for which every operation succeeds. -/
def allOkOracle : AttachOracle :=
  ⟨fun _ => "", fun _ => none, fun _ => none⟩

/-- The error discipline of the RunPodSandbox attach loop: every device
recorded as attached moved successfully; on a nil result every attempted
device is attached; on an error the attempts are exactly the attached
devices followed by the single failing device, whose netdev attach produced
the returned error (so processing stopped there and no later device was
attempted). -/
def goodOutcome (o : AttachOracle) (out : SandboxOutcome) : Prop :=
  (∀ d ∈ out.netAttached, o.attachNetdev d = none) ∧
  (out.err = none → out.netAttempts = out.netAttached) ∧
  (∀ e, out.err = some e →
    ∃ d, out.netAttempts = out.netAttached ++ [d] ∧ o.attachNetdev d = some e)

/-! ## Theorems -/

theorem isHexDigitChar_ne {c : Char} (h : isHexDigitChar c = true) :
    c ≠ ':' ∧ c ≠ '.' ∧ c ≠ '-' := by
  refine ⟨?_, ?_, ?_⟩ <;> rintro rfl <;> revert h <;> decide

theorem replaceColonDot_hex {p : GoStr} (h : p.all isHexDigitChar = true) :
    replaceColonDot p = p := by
  induction p with
  | nil => rfl
  | cons c cs ih =>
    rw [List.all_cons] at h
    obtain ⟨h1, h2⟩ := (Bool.and_eq_true _ _).mp h
    have hne := isHexDigitChar_ne h1
    have hc : replChar c = c := by
      unfold replChar
      rw [if_neg]
      simp only [Bool.or_eq_true, decide_eq_true_eq]
      rintro (rfl | rfl)
      · exact hne.1 rfl
      · exact hne.2.1 rfl
    show replChar c :: replaceColonDot cs = c :: cs
    rw [hc, ih h2]

theorem hex_no_dash {p : GoStr} (h : p.all isHexDigitChar = true) : '-' ∉ p := by
  intro hmem
  exact (isHexDigitChar_ne (List.all_eq_true.mp h _ hmem)).2.2 rfl

theorem splitOnChar_no_sep {sep : Char} {p : GoStr} (h : sep ∉ p) :
    splitOnChar sep p = [p] := by
  induction p with
  | nil => rfl
  | cons c cs ih =>
    have hc : ¬ c = sep := fun hcc => h (hcc ▸ List.mem_cons_self c cs)
    have ih2 := ih (fun hm => h (List.mem_cons_of_mem c hm))
    simp [splitOnChar, hc, ih2]

theorem splitOnChar_append {sep : Char} (p : GoStr) (rest : GoStr) (h : sep ∉ p) :
    splitOnChar sep (p ++ sep :: rest) = p :: splitOnChar sep rest := by
  induction p with
  | nil => simp [splitOnChar]
  | cons c cs ih =>
    have hc : ¬ c = sep := fun hcc => h (hcc ▸ List.mem_cons_self c cs)
    have ih2 := ih (fun hm => h (List.mem_cons_of_mem c hm))
    show (if c = sep then [] :: splitOnChar sep (cs ++ sep :: rest)
      else match splitOnChar sep (cs ++ sep :: rest) with
        | [] => [[c]]
        | p :: ps => (c :: p) :: ps) = (c :: cs) :: splitOnChar sep rest
    rw [if_neg hc, ih2]

theorem denorm_of_parts (p0 p1 p2 p3 : GoStr) (h0 : '-' ∉ p0) (h1 : '-' ∉ p1)
    (h2 : '-' ∉ p2) (h3 : '-' ∉ p3) :
    DeNormalizePCIAddress
        (normalizedNamePref ++ '-' :: (p0 ++ '-' :: (p1 ++ '-' :: (p2 ++ '-' :: p3)))) =
      p0 ++ ':' :: (p1 ++ ':' :: (p2 ++ '.' :: p3)) := by
  have hfull : normalizedNamePref ++ '-' :: (p0 ++ '-' :: (p1 ++ '-' :: (p2 ++ '-' :: p3))) =
      (normalizedNamePref ++ [ '-' ]) ++ (p0 ++ '-' :: (p1 ++ '-' :: (p2 ++ '-' :: p3))) := by
    simp
  have hne2 : ¬ (normalizedNamePref ++
      '-' :: (p0 ++ '-' :: (p1 ++ '-' :: (p2 ++ '-' :: p3)))) = [] := by
    simp [normalizedNamePref]
  have hpref : (normalizedNamePref ++ [ '-' ]).isPrefixOf
      (normalizedNamePref ++ '-' :: (p0 ++ '-' :: (p1 ++ '-' :: (p2 ++ '-' :: p3)))) = true := by
    rw [hfull]
    exact List.isPrefixOf_iff_prefix.mpr (List.prefix_append _ _)
  have hdrop : (normalizedNamePref ++
      '-' :: (p0 ++ '-' :: (p1 ++ '-' :: (p2 ++ '-' :: p3)))).drop
      (normalizedNamePref.length + 1) = p0 ++ '-' :: (p1 ++ '-' :: (p2 ++ '-' :: p3)) := by
    rw [hfull]
    have hlen : (normalizedNamePref ++ [ '-' ]).length = normalizedNamePref.length + 1 := by
      simp
    rw [← hlen, List.drop_left]
  have hsplit : splitOnChar '-' (p0 ++ '-' :: (p1 ++ '-' :: (p2 ++ '-' :: p3))) =
      [p0, p1, p2, p3] := by
    rw [splitOnChar_append _ _ h0, splitOnChar_append _ _ h1,
        splitOnChar_append _ _ h2, splitOnChar_no_sep h3]
  rw [DeNormalizePCIAddress, if_neg hne2, if_neg (fun hc => hc hpref)]
  simp only [hdrop, hsplit]
  simp

/-- C3. For every well-formed BDF address, normalization prepends "net1-" and
replaces separators with dashes, and denormalization inverts it exactly. -/
theorem normalize_denormalize_roundtrip (d b dv f : GoStr)
    (hd : hexComp d = true) (hb : hexComp b = true)
    (hdv : hexComp dv = true) (hf : hexComp f = true) :
    DeNormalizePCIAddress (NormalizePCIAddress (mkBDF d b dv f)) = mkBDF d b dv f ∧
    NormalizePCIAddress (mkBDF d b dv f) =
      normalizedNamePref ++ '-' :: replaceColonDot (mkBDF d b dv f) := by
  have hdne : d ≠ [] := by
    intro hnil
    rw [hnil] at hd
    simp [hexComp] at hd
  have hdhex : d.all isHexDigitChar = true := ((Bool.and_eq_true _ _).mp hd).2
  have hbhex : b.all isHexDigitChar = true := ((Bool.and_eq_true _ _).mp hb).2
  have hdvhex : dv.all isHexDigitChar = true := ((Bool.and_eq_true _ _).mp hdv).2
  have hfhex : f.all isHexDigitChar = true := ((Bool.and_eq_true _ _).mp hf).2
  have hne : mkBDF d b dv f ≠ [] := by
    cases d with
    | nil => exact absurd rfl hdne
    | cons c cs => simp [mkBDF]
  have hrepl : replaceColonDot (mkBDF d b dv f) =
      d ++ '-' :: (b ++ '-' :: (dv ++ '-' :: f)) := by
    have e1 : ∀ x y : GoStr, replaceColonDot (x ++ y) = replaceColonDot x ++ replaceColonDot y :=
      fun x y => List.map_append _ x y
    have e2 : ∀ c (y : GoStr), replaceColonDot (c :: y) = replChar c :: replaceColonDot y :=
      fun c y => rfl
    have ecolon : replChar ':' = '-' := by decide
    have edot : replChar '.' = '-' := by decide
    unfold mkBDF
    rw [e1, e2, e1, e2, e1, e2, ecolon, edot,
        replaceColonDot_hex hdhex, replaceColonDot_hex hbhex,
        replaceColonDot_hex hdvhex, replaceColonDot_hex hfhex]
  constructor
  · rw [NormalizePCIAddress, if_neg hne, hrepl,
        denorm_of_parts d b dv f (hex_no_dash hdhex) (hex_no_dash hbhex)
          (hex_no_dash hdvhex) (hex_no_dash hfhex)]
    rfl
  · rw [NormalizePCIAddress, if_neg hne]

/-- C3 witness: the roundtrip at the concrete address 0000:8a:00.0. -/
theorem normalize_denormalize_roundtrip_witness :
    DeNormalizePCIAddress (NormalizePCIAddress (mkBDF
      [ '0', '0', '0', '0' ] [ '8', 'a' ] [ '0', '0' ] [ '0' ])) =
      mkBDF [ '0', '0', '0', '0' ] [ '8', 'a' ] [ '0', '0' ] [ '0' ] :=
  (normalize_denormalize_roundtrip
    [ '0', '0', '0', '0' ] [ '8', 'a' ] [ '0', '0' ] [ '0' ]
    (by decide) (by decide) (by decide) (by decide)).1

/-- C10. ValidateConfig treats a nil RawExtension, a RawExtension whose Raw
byte slice is nil, and one whose Raw byte slice is empty as validly absent:
it returns a nil configuration and a nil error without parsing or
validating. -/
theorem validateConfig_absent_payload :
    ValidateConfig none = (none, none) ∧
    ValidateConfig (some ⟨none⟩) = (none, none) ∧
    ValidateConfig (some ⟨some RawBytes.empty⟩) = (none, none) :=
  ⟨rfl, rfl, rfl⟩

/-- C5 counterexample: a configuration whose mtu is the negative integer -5
and whose other fields are valid passes ValidateConfig with a nil error, so
ValidateConfig does not reject non-positive MTU values. -/
theorem validateConfig_mtu_counterexample :
    ValidateConfig (some ⟨some (.json mtuNegativeDoc)⟩) = (some mtuNegativeCfg, none) ∧
    mtuNegativeCfg.Interface.MTU = -5 := by
  exact ⟨by decide, by decide⟩

/-- C5 amended: ValidateConfig performs no MTU validation at all; replacing
the mtu of any parsed configuration by any integer leaves both the collected
field errors and the joined returned error unchanged. -/
theorem validateConfig_ignores_mtu (c : NetworkConfig) (m : Int) :
    validateNetworkConfig (setMTU c m) = validateNetworkConfig c ∧
    joinErrors (validateNetworkConfig (setMTU c m)) =
      joinErrors (validateNetworkConfig c) :=
  ⟨rfl, rfl⟩

theorem refreshStep_snd (h : Bool) (ds : List Device) :
    (refreshStep h ds).2 = decide (ds ≠ []) := by
  unfold refreshStep
  by_cases hc : 0 < ds.length ∨ h = true
  · rw [if_pos hc]
    cases ds <;> simp
  · rw [if_neg hc]
    push_neg at hc
    have h1 : ds = [] := by
      cases ds with
      | nil => rfl
      | cons x xs => simp at hc
    have h2 : h = false := by
      cases h with
      | false => rfl
      | true => exact absurd rfl hc.2
    subst h1
    subst h2
    simp

theorem runRefreshes_length (h : Bool) (l : List (List Device)) :
    (runRefreshes h l).length = l.length := by
  induction l generalizing h with
  | nil => rfl
  | cons ds rest ih => simp [runRefreshes, ih]

theorem runRefreshes_get (l : List (List Device)) :
    ∀ (h : Bool) (i : Nat) (hi : i < l.length)
      (hi2 : i < (runRefreshes h l).length),
      ((runRefreshes h l).get ⟨i, hi2⟩ = true ↔
        (l.get ⟨i, hi⟩ ≠ [] ∨
          (if _hz : i = 0 then h = true else l.get ⟨i - 1, by omega⟩ ≠ []))) := by
  induction l with
  | nil => intro h i hi hi2; simp at hi
  | cons ds rest ih =>
    intro h i hi hi2
    cases i with
    | zero =>
      simp only [runRefreshes, List.get, dif_pos]
      constructor
      · intro hemit
        unfold refreshStep at hemit
        by_cases hc : 0 < ds.length ∨ h = true
        · rcases hc with hc | hc
          · left
            cases ds with
            | nil => simp at hc
            | cons x xs => simp
          · right
            simpa using hc
        · rw [if_neg hc] at hemit
          simp at hemit
      · intro hcond
        unfold refreshStep
        rcases hcond with hcond | hcond
        · rw [if_pos]
          left
          cases ds with
          | nil => exact absurd rfl hcond
          | cons x xs => simp
        · rw [if_pos]
          right
          simpa using hcond
    | succ n =>
      have hn : n < rest.length := by simpa using hi
      have hn2 : n < (runRefreshes (refreshStep h ds).2 rest).length := by
        rw [runRefreshes_length]
        exact hn
      have := ih (refreshStep h ds).2 n hn hn2
      simp only [runRefreshes, List.get] at this ⊢
      rw [this]
      constructor
      · rintro (hc | hc)
        · exact Or.inl hc
        · right
          rw [dif_neg (Nat.succ_ne_zero n)]
          cases n with
          | zero =>
            rw [dif_pos rfl] at hc
            rw [refreshStep_snd] at hc
            simpa using of_decide_eq_true hc
          | succ m =>
            rw [dif_neg (Nat.succ_ne_zero m)] at hc
            simpa using hc
      · rintro (hc | hc)
        · exact Or.inl hc
        · right
          rw [dif_neg (Nat.succ_ne_zero n)] at hc
          cases n with
          | zero =>
            rw [dif_pos rfl]
            rw [refreshStep_snd]
            simpa using decide_eq_true (by simpa using hc)
          | succ m =>
            rw [dif_neg (Nat.succ_ne_zero m)]
            simpa using hc

/-- C9. In the refresh loop of DB.Run started with hasDevices false, a
notification is emitted for refresh i exactly when the freshly built device
list is non-empty or the immediately preceding refresh produced a non-empty
list; in particular two consecutive empty refreshes emit nothing. -/
theorem dbRun_notification_policy (refreshes : List (List Device)) (i : Nat)
    (hi : i < refreshes.length)
    (hi2 : i < (runRefreshes false refreshes).length) :
    ((runRefreshes false refreshes).get ⟨i, hi2⟩ = true ↔
      (refreshes.get ⟨i, hi⟩ ≠ [] ∨
        (0 < i ∧ refreshes.get ⟨i - 1, by omega⟩ ≠ []))) := by
  rw [runRefreshes_get refreshes false i hi hi2]
  cases i with
  | zero =>
    rw [dif_pos rfl]
    constructor
    · rintro (hc | hc)
      · exact Or.inl hc
      · simp at hc
    · rintro (hc | hc)
      · exact Or.inl hc
      · exact absurd hc.1 (by omega)
  | succ n =>
    rw [dif_neg (Nat.succ_ne_zero n)]
    constructor
    · rintro (hc | hc)
      · exact Or.inl hc
      · exact Or.inr ⟨Nat.succ_pos n, hc⟩
    · rintro (hc | hc)
      · exact Or.inl hc
      · exact Or.inr hc.2

/-- C9 witness: with one populated refresh followed by two empty ones, no
notification is emitted for the third refresh (both it and its predecessor
are empty). -/
theorem dbRun_notification_policy_witness :
    ¬ ((runRefreshes false demoRefreshes).get ⟨2, by decide⟩ = true) := by
  intro hemit
  have h := (dbRun_notification_policy demoRefreshes 2 (by decide) (by decide)).mp hemit
  rcases h with hc | hc
  · exact hc (by decide)
  · exact hc.2 (by decide)

/-- C1 evaluation at the failing input: eth0 carries the IPv4 default route
(getDefaultGwInterfaces reports it), yet the refresh catalog built by DB.Run
from the PCI device backing eth0 still contains that device, so the
default-route interface is published rather than excluded. -/
theorem dbRun_includes_default_route_interface :
    getDefaultGwInterfaces defaultRouteTable linkTable1 = ["eth0"] ∧
    dbRunBuildDevices sysfsEth0 pciDevsEth0 =
      [⟨NormalizePCIAddress ("0000:00:04.0".data : GoStr), some "eth0"⟩] ∧
    (dbRunBuildDevices sysfsEth0 pciDevsEth0).length ≠ 0 := by
  refine ⟨by decide, by decide, by decide⟩

instance : IsTotal RouteConfig (fun a b => b.Scope ≤ a.Scope) :=
  ⟨fun a b => le_total b.Scope a.Scope⟩

instance : IsTrans RouteConfig (fun a b => b.Scope ≤ a.Scope) :=
  ⟨fun _ _ _ hab hbc => le_trans hbc hab⟩

/-- C7. applyRoutingConfig processes the sorted route list; the sort is a
permutation of the configured routes ordered by non-increasing scope, so
every link-scope (253) route is installed before any universe-scope (0)
route. -/
theorem applyRoutingConfig_scope_order (h : NetnsHandle)
    (routeConfig : List RouteConfig) :
    applyRoutingConfig (.ok h) routeConfig =
      joinErrors (((sortRoutesByScope routeConfig).map (routeIterErrs h)).flatten) ∧
    (sortRoutesByScope routeConfig).Perm routeConfig ∧
    List.Sorted (fun a b => b.Scope ≤ a.Scope) (sortRoutesByScope routeConfig) ∧
    (∀ (i j : Fin (sortRoutesByScope routeConfig).length), i < j →
      ((sortRoutesByScope routeConfig).get i).Scope = 0 →
      ((sortRoutesByScope routeConfig).get j).Scope ≠ 253) := by
  refine ⟨rfl, List.perm_insertionSort _ _, List.sorted_insertionSort _ _, ?_⟩
  intro i j hij h0 h253
  have hs : List.Sorted (fun a b => b.Scope ≤ a.Scope) (sortRoutesByScope routeConfig) :=
    List.sorted_insertionSort _ _
  have hrel := List.Sorted.rel_get_of_lt hs hij
  rw [h0, h253] at hrel
  omega

/-- C7 witness: on two universe-scope routes the sorted second element indeed
has scope other than 253. -/
theorem applyRoutingConfig_scope_order_witness :
    ((sortRoutesByScope [⟨"10.0.0.0/8", "10.0.5.1", "", 0, 0⟩,
        ⟨"10.0.1.0/24", "10.0.5.1", "", 0, 0⟩]).get ⟨1, by decide⟩).Scope ≠ 253 :=
  (applyRoutingConfig_scope_order allOkHandle
      [⟨"10.0.0.0/8", "10.0.5.1", "", 0, 0⟩, ⟨"10.0.1.0/24", "10.0.5.1", "", 0, 0⟩]).2.2.2
    ⟨0, by decide⟩ ⟨1, by decide⟩ (by decide) (by decide)

/-- C2 counterexample: one claim allocates two devices of this driver; the
first netdev attach fails, and RunPodSandbox returns that error having never
attempted the second device, so the handler does not continue with remaining
devices as the claim states. -/
theorem runPodSandbox_counterexample :
    (RunPodSandbox failFirstOracle "dra.net" twoDeviceClaims "/var/run/netns/pod1").err =
      some (.msg "device or resource busy") ∧
    (RunPodSandbox failFirstOracle "dra.net" twoDeviceClaims "/var/run/netns/pod1").netAttempts =
      ["net1-0000-8a-00-0"] ∧
    ¬ ("net1-0000-8b-00-0" ∈
      (RunPodSandbox failFirstOracle "dra.net" twoDeviceClaims "/var/run/netns/pod1").netAttempts) := by
  refine ⟨by decide, by decide, by decide⟩

theorem runResults_good (o : AttachOracle) (dn : String) :
    ∀ rs : List AllocationResult, goodOutcome o (runResults o dn rs) := by
  intro rs
  induction rs with
  | nil =>
    refine ⟨?_, ?_, ?_⟩
    · intro d hd
      simp [runResults] at hd
    · intro _
      rfl
    · intro e he
      simp [runResults] at he
  | cons r rest ih =>
    unfold runResults
    by_cases hdrv : r.Driver ≠ dn
    · rw [if_pos hdrv]
      exact ih
    · rw [if_neg hdrv]
      by_cases hrd : o.rdmaForDev r.Device ≠ ""
      · rw [if_pos hrd]
        cases hA : o.attachRdma (o.rdmaForDev r.Device) with
        | some e1 => exact ih
        | none =>
          cases hB : o.attachNetdev r.Device with
          | some e2 =>
            refine ⟨?_, ?_, ?_⟩
            · intro d hd
              simp at hd
            · intro hc
              simp at hc
            · intro e he
              simp at he
              exact ⟨r.Device, by simp, by rw [hB, he]⟩
          | none =>
            obtain ⟨ih1, ih2, ih3⟩ := ih
            refine ⟨?_, ?_, ?_⟩
            · intro d hd
              simp at hd
              rcases hd with hd | hd
              · rw [hd]; exact hB
              · exact ih1 d hd
            · intro hc
              simp at hc
              simp [ih2 hc]
            · intro e he
              simp at he
              obtain ⟨d, hd1, hd2⟩ := ih3 e he
              exact ⟨d, by simp [hd1], hd2⟩
      · rw [if_neg hrd]
        cases hB : o.attachNetdev r.Device with
        | some e2 =>
          refine ⟨?_, ?_, ?_⟩
          · intro d hd
            simp at hd
          · intro hc
            simp at hc
          · intro e he
            simp at he
            exact ⟨r.Device, by simp, by rw [hB, he]⟩
        | none =>
          obtain ⟨ih1, ih2, ih3⟩ := ih
          refine ⟨?_, ?_, ?_⟩
          · intro d hd
            simp at hd
            rcases hd with hd | hd
            · rw [hd]; exact hB
            · exact ih1 d hd
          · intro hc
            simp at hc
            simp [ih2 hc]
          · intro e he
            simp at he
            obtain ⟨d, hd1, hd2⟩ := ih3 e he
            exact ⟨d, by simp [hd1], hd2⟩

theorem seqOutcome_good (o : AttachOracle) (out rest : SandboxOutcome)
    (hout : goodOutcome o out) (hrest : goodOutcome o rest) :
    goodOutcome o (seqOutcome out rest) := by
  obtain ⟨g1, g2, g3⟩ := hout
  obtain ⟨ih1, ih2, ih3⟩ := hrest
  unfold seqOutcome
  cases herr : out.err with
  | some e0 =>
    refine ⟨g1, ?_, ?_⟩
    · intro hc
      rw [herr] at hc
      simp at hc
    · intro e he
      rw [herr] at he
      have he2 : e0 = e := Option.some.inj he
      subst he2
      exact g3 e0 herr
  | none =>
    have heq := g2 herr
    refine ⟨?_, ?_, ?_⟩
    · intro d hd
      simp at hd
      rcases hd with hd | hd
      · exact g1 d hd
      · exact ih1 d hd
    · intro hc
      simp at hc
      simp [heq, ih2 hc]
    · intro e he
      simp at he
      obtain ⟨d, hd1, hd2⟩ := ih3 e he
      refine ⟨d, ?_, hd2⟩
      simp [heq, hd1]

theorem runClaims_good (o : AttachOracle) (dn : String) :
    ∀ cs : List (Option (List AllocationResult)), goodOutcome o (runClaims o dn cs) := by
  intro cs
  induction cs with
  | nil =>
    refine ⟨?_, ?_, ?_⟩
    · intro d hd
      simp [runClaims] at hd
    · intro _
      rfl
    · intro e he
      simp [runClaims] at he
  | cons c rest ih =>
    cases c with
    | none => exact ih
    | some results =>
      exact seqOutcome_good o _ _ (runResults_good o dn results) ih

/-- C2 amended. When attaching a device netdev fails, RunPodSandbox stops at
that device and returns its error immediately (no later allocation result is
attempted); devices attached before the failure remain attached, and only an
RDMA-attach failure causes skip-and-continue. -/
theorem runPodSandbox_first_error (o : AttachOracle) (dn : String)
    (claims : List (Option (List AllocationResult))) (ns : String) :
    goodOutcome o (RunPodSandbox o dn claims ns) := by
  unfold RunPodSandbox
  by_cases h1 : claims.isEmpty
  · rw [if_pos h1]
    exact ⟨fun d hd => by simp at hd, fun _ => rfl, fun e he => by simp at he⟩
  · rw [if_neg h1]
    by_cases h2 : ns = ""
    · rw [if_pos h2]
      exact ⟨fun d hd => by simp at hd, fun _ => rfl, fun e he => by simp at he⟩
    · rw [if_neg h2]
      exact runClaims_good o dn claims

/-- C2 amended witness: with an all-succeeding oracle both allocated devices
end attached, and the first one was indeed moved without error. -/
theorem runPodSandbox_first_error_witness :
    allOkOracle.attachNetdev "net1-0000-8a-00-0" = none :=
  (runPodSandbox_first_error allOkOracle "dra.net" twoDeviceClaims
      "/var/run/netns/pod1").1 "net1-0000-8a-00-0" (by decide)

theorem joinErrors_of_all_nil {α : Type} (f : α → List GoErr) (l : List α)
    (h : ∀ x ∈ l, f x = []) : joinErrors ((l.map f).flatten) = none := by
  have hnil : (l.map f).flatten = [] := by
    rw [List.flatten_eq_nil_iff]
    intro xs hxs
    obtain ⟨x, hx, rfl⟩ := List.mem_map.mp hxs
    exact h x hx
  rw [hnil]
  rfl

theorem routeIterErrs_nil (h : NetnsHandle) (r : RouteConfig)
    (hparse : (netParseCIDR r.Destination).isSome = true)
    (hlist : h.routeList.isSome = true)
    (hpresent : routeAlreadyExists h r = true ∨
      (∀ dst, netParseCIDR r.Destination = some dst →
        h.routeAdd (mkNetRoute h r dst) = .eexist)) :
    routeIterErrs h r = [] := by
  unfold routeIterErrs
  cases hc : netParseCIDR r.Destination with
  | none => rw [hc] at hparse; simp at hparse
  | some dst =>
    cases hl : h.routeList with
    | none => rw [hl] at hlist; simp at hlist
    | some exs =>
      by_cases hex : exs.any (fun ex => routeMatches ex (mkNetRoute h r dst)) = true
      · simp only [hex, if_true]
      · rcases hpresent with hp | hp
        · unfold routeAlreadyExists at hp
          rw [hc, hl] at hp
          exact absurd hp hex
        · have hadd := hp dst hc
          simp [hex, hadd]

theorem neighIterErrs_nil (h : NetnsHandle) (n : NeighborConfig)
    (hip : (netParseIP n.Destination).isSome = true)
    (hmac : (netParseMAC n.HardwareAddr).isSome = true)
    (hadd : ∀ ip mac, netParseIP n.Destination = some ip →
      netParseMAC n.HardwareAddr = some mac →
      h.neighAdd ⟨h.linkIndex, 128, ip, mac⟩ = .eexist) :
    neighIterErrs h n = [] := by
  unfold neighIterErrs
  cases hi : netParseIP n.Destination with
  | none => rw [hi] at hip; simp at hip
  | some ip =>
    cases hm : netParseMAC n.HardwareAddr with
    | none => rw [hm] at hmac; simp at hmac
    | some mac =>
      have := hadd ip mac hi hm
      simp only [this]

theorem ruleIterErrs_nil (h : NetnsHandle) (rc : RuleConfig)
    (hsrc : rc.Source = "" ∨ (netParseCIDR rc.Source).isSome = true)
    (hdst : rc.Destination = "" ∨ (netParseCIDR rc.Destination).isSome = true)
    (hadd : h.ruleAdd ⟨rc.Priority, rc.Table,
      (if rc.Source = "" then none else (netParseCIDR rc.Source).map maskedCIDR),
      (if rc.Destination = "" then none
        else (netParseCIDR rc.Destination).map maskedCIDR)⟩ = .eexist) :
    ruleIterErrs h rc = [] := by
  unfold ruleIterErrs
  have hc1 : ¬ (rc.Source ≠ "" ∧ (netParseCIDR rc.Source).isNone = true) := by
    rintro ⟨hne, hnone⟩
    rcases hsrc with hs | hs
    · exact hne hs
    · rw [Option.isNone_iff_eq_none] at hnone
      rw [hnone] at hs
      simp at hs
  have hc2 : ¬ (rc.Destination ≠ "" ∧ (netParseCIDR rc.Destination).isNone = true) := by
    rintro ⟨hne, hnone⟩
    rcases hdst with hs | hs
    · exact hne hs
    · rw [Option.isNone_iff_eq_none] at hnone
      rw [hnone] at hs
      simp at hs
  rw [if_neg hc1, if_neg hc2]
  simp only [hadd]

/-- C8. Re-applying already-present configuration succeeds silently: a route
already listed with identical destination, gateway, source and scope is
skipped, and a kernel add reporting EEXIST is not recorded as an error, so
when every route, neighbor and rule is already present applyRoutingConfig,
applyNeighborConfig and applyRulesConfig all return a nil error. -/
theorem apply_config_idempotent (h : NetnsHandle)
    (routeConfig : List RouteConfig) (neighConfig : List NeighborConfig)
    (rulesConfig : List RuleConfig)
    (hlist : h.routeList.isSome = true)
    (hroutes : ∀ r ∈ routeConfig, (netParseCIDR r.Destination).isSome = true ∧
      (routeAlreadyExists h r = true ∨
        ∀ dst, netParseCIDR r.Destination = some dst →
          h.routeAdd (mkNetRoute h r dst) = .eexist))
    (hneighs : ∀ n ∈ neighConfig, (netParseIP n.Destination).isSome = true ∧
      (netParseMAC n.HardwareAddr).isSome = true ∧
      (∀ ip mac, netParseIP n.Destination = some ip →
        netParseMAC n.HardwareAddr = some mac →
        h.neighAdd ⟨h.linkIndex, 128, ip, mac⟩ = .eexist))
    (hrules : ∀ rc ∈ rulesConfig,
      (rc.Source = "" ∨ (netParseCIDR rc.Source).isSome = true) ∧
      (rc.Destination = "" ∨ (netParseCIDR rc.Destination).isSome = true) ∧
      h.ruleAdd ⟨rc.Priority, rc.Table,
        (if rc.Source = "" then none else (netParseCIDR rc.Source).map maskedCIDR),
        (if rc.Destination = "" then none
          else (netParseCIDR rc.Destination).map maskedCIDR)⟩ = .eexist) :
    applyRoutingConfig (.ok h) routeConfig = none ∧
    applyNeighborConfig (.ok h) neighConfig = none ∧
    applyRulesConfig (.ok h) rulesConfig = none := by
  refine ⟨?_, ?_, ?_⟩
  · show joinErrors (((sortRoutesByScope routeConfig).map (routeIterErrs h)).flatten) = none
    refine joinErrors_of_all_nil _ _ ?_
    intro r hr
    have hrm : r ∈ routeConfig :=
      (List.Perm.mem_iff (List.perm_insertionSort _ _)).mp hr
    obtain ⟨h1, h2⟩ := hroutes r hrm
    exact routeIterErrs_nil h r h1 hlist h2
  · show joinErrors ((neighConfig.map (neighIterErrs h)).flatten) = none
    refine joinErrors_of_all_nil _ _ ?_
    intro n hn
    obtain ⟨h1, h2, h3⟩ := hneighs n hn
    exact neighIterErrs_nil h n h1 h2 h3
  · show joinErrors ((rulesConfig.map (ruleIterErrs h)).flatten) = none
    refine joinErrors_of_all_nil _ _ ?_
    intro rc hrc
    obtain ⟨h1, h2, h3⟩ := hrules rc hrc
    exact ruleIterErrs_nil h rc h1 h2 h3

/-- C8 witness: with a kernel answering EEXIST to every add, one valid route,
neighbor and rule all apply with a nil error. -/
theorem apply_config_idempotent_witness :
    applyRoutingConfig (.ok allExistHandle) [⟨"10.0.0.0/8", "192.168.1.1", "", 0, 0⟩] = none ∧
    applyNeighborConfig (.ok allExistHandle) [⟨"192.168.1.1", "00:11:22:33:44:55"⟩] = none ∧
    applyRulesConfig (.ok allExistHandle) [⟨100, 5, "10.0.0.0/8", ""⟩] = none := by
  refine apply_config_idempotent allExistHandle _ _ _ (by decide) ?_ ?_ ?_
  · intro r hr
    rw [List.mem_singleton] at hr
    subst hr
    exact ⟨by decide, Or.inr (fun dst _ => rfl)⟩
  · intro n hn
    rw [List.mem_singleton] at hn
    subst hn
    exact ⟨by decide, by decide, fun ip mac _ _ => rfl⟩
  · intro rc hrc
    rw [List.mem_singleton] at hrc
    subst hrc
    exact ⟨Or.inr (by decide), Or.inl rfl, rfl⟩

theorem joinErrors_isSome {l : List GoErr} (h : l ≠ []) :
    (joinErrors l).isSome = true := by
  cases l with
  | nil => exact absurd rfl h
  | cons e es => rfl

theorem validateConfig_parsed (v : Json) (c : NetworkConfig)
    (h1 : unmarshalNetworkConfig v = .ok c) (h2 : strictPaths v = []) :
    ValidateConfig (some ⟨some (.json v)⟩) =
      (some c, joinErrors (validateNetworkConfig c)) := by
  simp only [ValidateConfig, h1, h2]

theorem validateAddressErrs_nil {ips : List String}
    (h : ∀ ip ∈ ips, (netipParsePrefix ip).isSome = true) :
    validateAddressErrs ips = [] := by
  unfold validateAddressErrs
  rw [List.filterMap_eq_nil_iff]
  intro ip hip
  rw [if_pos (h ip hip)]

theorem validateRouteErrs_nil (i : Nat) (r : RouteConfig)
    (h : routeFieldOk r = true) : validateRouteErrs i r = [] := by
  unfold routeFieldOk at h
  simp only [Bool.and_eq_true, Bool.or_eq_true, decide_eq_true_eq] at h
  obtain ⟨⟨hdst, hscope⟩, hgw⟩ := h
  unfold validateRouteErrs
  have hc1 : (if r.Destination = "" then
      [GoErr.msg ("route " ++ toString i ++ ": destination cannot be empty")]
    else if (netParseCIDR r.Destination).isNone && (netParseIP r.Destination).isNone then
      [GoErr.msg ("route " ++ toString i ++ ": invalid destination IP or CIDR " ++
        r.Destination)]
    else []) = [] := by
    rw [if_neg hdst.1, if_neg]
    rw [Bool.and_eq_true]
    rintro ⟨ha, hb⟩
    rcases hdst.2 with hs | hs
    · rw [Option.isNone_iff_eq_none] at ha
      rw [ha] at hs
      simp at hs
    · rw [Option.isNone_iff_eq_none] at hb
      rw [hb] at hs
      simp at hs
  have hc2 : (if r.Scope ≠ 0 ∧ r.Scope ≠ 253 then
      [GoErr.msg ("route " ++ toString i ++
        ": invalid scope only Link (253) or Universe (0) allowed")]
    else []) = [] := by
    rw [if_neg]
    rintro ⟨h0, h253⟩
    rcases hscope with hs | hs
    · exact h0 hs
    · exact h253 hs
  have hc3 : (if r.Gateway ≠ "" then
      (if (netParseIP r.Gateway).isNone then
        [GoErr.msg ("route " ++ toString i ++ ": invalid gateway IP " ++ r.Gateway)]
       else [])
    else if r.Scope ≠ 253 then
      [GoErr.msg ("route " ++ toString i ++ ": for destination " ++ r.Destination ++
        " must have a gateway")]
    else []) = [] := by
    by_cases hg : r.Gateway = ""
    · rw [if_pos hg] at hgw
      rw [decide_eq_true_eq] at hgw
      rw [if_neg (fun hcc => hcc hg), if_neg (fun hcc => hcc hgw)]
    · rw [if_neg hg] at hgw
      rw [if_pos hg, if_neg]
      intro hcc
      rw [Option.isNone_iff_eq_none] at hcc
      rw [hcc] at hgw
      simp at hgw
  rw [hc1, hc2, hc3]
  rfl

theorem validateRoutesErrs_nil {rs : List RouteConfig}
    (h : ∀ r ∈ rs, routeFieldOk r = true) : ∀ i, validateRoutesErrs i rs = [] := by
  induction rs with
  | nil => intro i; rfl
  | cons r rest ih =>
    intro i
    unfold validateRoutesErrs
    rw [validateRouteErrs_nil i r (h r (List.mem_cons_self r rest)),
        ih (fun x hx => h x (List.mem_cons_of_mem r hx)) (i + 1)]
    rfl

theorem validateRoutesErrs_ne_nil {r : RouteConfig} {rs : List RouteConfig}
    (hmem : r ∈ rs) (hne : ∀ i, validateRouteErrs i r ≠ []) :
    ∀ i, validateRoutesErrs i rs ≠ [] := by
  induction hmem with
  | head rest =>
    intro i hcon
    unfold validateRoutesErrs at hcon
    rw [List.append_eq_nil] at hcon
    exact hne i hcon.1
  | tail b hb ih =>
    intro i hcon
    unfold validateRoutesErrs at hcon
    rw [List.append_eq_nil] at hcon
    exact ih (i + 1) hcon.2

theorem validateRouteErrs_ne_of_scope (r : RouteConfig)
    (h0 : r.Scope ≠ 0) (h253 : r.Scope ≠ 253) :
    ∀ i, validateRouteErrs i r ≠ [] := by
  intro i hcon
  unfold validateRouteErrs at hcon
  rw [List.append_eq_nil] at hcon
  obtain ⟨hAB, _⟩ := hcon
  rw [List.append_eq_nil] at hAB
  obtain ⟨_, hB⟩ := hAB
  rw [if_pos ⟨h0, h253⟩] at hB
  simp at hB

theorem validateRouteErrs_ne_of_nogw (r : RouteConfig)
    (hs : r.Scope = 0) (hg : r.Gateway = "") :
    ∀ i, validateRouteErrs i r ≠ [] := by
  intro i hcon
  unfold validateRouteErrs at hcon
  rw [List.append_eq_nil] at hcon
  obtain ⟨_, hC⟩ := hcon
  rw [if_neg (fun hcc => hcc hg),
      if_pos (show r.Scope ≠ 253 by rw [hs]; decide)] at hC
  simp at hC

theorem validateRouteErrs_ne_of_badgw (r : RouteConfig)
    (hg : r.Gateway ≠ "") (hnone : netParseIP r.Gateway = none) :
    ∀ i, validateRouteErrs i r ≠ [] := by
  intro i hcon
  unfold validateRouteErrs at hcon
  rw [List.append_eq_nil] at hcon
  obtain ⟨_, hC⟩ := hcon
  rw [if_pos hg, if_pos (show (netParseIP r.Gateway).isNone = true by rw [hnone]; rfl)] at hC
  simp at hC

theorem validateRouteErrs_ne_of_baddest (r : RouteConfig)
    (hd : r.Destination = "" ∨
      (netParseCIDR r.Destination = none ∧ netParseIP r.Destination = none)) :
    ∀ i, validateRouteErrs i r ≠ [] := by
  intro i hcon
  unfold validateRouteErrs at hcon
  rw [List.append_eq_nil] at hcon
  obtain ⟨hAB, _⟩ := hcon
  rw [List.append_eq_nil] at hAB
  obtain ⟨hA, _⟩ := hAB
  by_cases hde : r.Destination = ""
  · rw [if_pos hde] at hA
    simp at hA
  · rcases hd with hd | hd
    · exact hde hd
    · rw [if_neg hde,
        if_pos (show ((netParseCIDR r.Destination).isNone &&
          (netParseIP r.Destination).isNone) = true by rw [hd.1, hd.2]; rfl)] at hA
      simp at hA

theorem validateConfig_err_isSome (v : Json) (c : NetworkConfig)
    (h1 : unmarshalNetworkConfig v = .ok c) (h2 : strictPaths v = [])
    {r : RouteConfig} (hmem : r ∈ c.Routes)
    (hne : ∀ i, validateRouteErrs i r ≠ []) :
    (ValidateConfig (some ⟨some (.json v)⟩)).2.isSome = true := by
  rw [validateConfig_parsed v c h1 h2]
  apply joinErrors_isSome
  intro hcon
  unfold validateNetworkConfig at hcon
  rw [List.append_eq_nil] at hcon
  exact validateRoutesErrs_ne_nil hmem hne 0 hcon.2

/-- C4. ValidateConfig accepts link-scope (253) routes with an empty gateway
(they satisfy the per-route acceptance condition, and a configuration whose
addresses parse and whose routes all satisfy it is returned with a nil
error), and it returns an error whenever some route has a scope other than
0 or 253, a universe-scope (0) route has an empty gateway, a non-empty
gateway does not parse as an IP, or a destination is empty or parses neither
as a CIDR nor as a bare IP. -/
theorem validateConfig_route_scope_gateway (v : Json) (c : NetworkConfig)
    (hparse : unmarshalNetworkConfig v = .ok c)
    (hstrict : strictPaths v = []) :
    ((∀ r : RouteConfig, r.Scope = 253 → r.Gateway = "" → r.Destination ≠ "" →
        (netParseCIDR r.Destination).isSome = true → routeFieldOk r = true) ∧
     ((∀ ip ∈ c.Interface.Addresses, (netipParsePrefix ip).isSome = true) →
      (∀ r ∈ c.Routes, routeFieldOk r = true) →
      ValidateConfig (some ⟨some (.json v)⟩) = (some c, none))) ∧
    (∀ r ∈ c.Routes, r.Scope ≠ 0 → r.Scope ≠ 253 →
      (ValidateConfig (some ⟨some (.json v)⟩)).2.isSome = true) ∧
    (∀ r ∈ c.Routes, r.Scope = 0 → r.Gateway = "" →
      (ValidateConfig (some ⟨some (.json v)⟩)).2.isSome = true) ∧
    (∀ r ∈ c.Routes, r.Gateway ≠ "" → netParseIP r.Gateway = none →
      (ValidateConfig (some ⟨some (.json v)⟩)).2.isSome = true) ∧
    (∀ r ∈ c.Routes, (r.Destination = "" ∨
        (netParseCIDR r.Destination = none ∧ netParseIP r.Destination = none)) →
      (ValidateConfig (some ⟨some (.json v)⟩)).2.isSome = true) := by
  refine ⟨⟨?_, ?_⟩, ?_, ?_, ?_, ?_⟩
  · intro r h253 hg hdne hcidr
    unfold routeFieldOk
    rw [if_pos hg]
    simp [h253, hg, hdne, hcidr]
  · intro haddr hroutes
    rw [validateConfig_parsed v c hparse hstrict]
    have hnil : validateNetworkConfig c = [] := by
      unfold validateNetworkConfig
      rw [validateAddressErrs_nil haddr, validateRoutesErrs_nil hroutes 0]
      rfl
    rw [hnil]
    rfl
  · intro r hmem h0 h253
    exact validateConfig_err_isSome v c hparse hstrict hmem
      (validateRouteErrs_ne_of_scope r h0 h253)
  · intro r hmem hs hg
    exact validateConfig_err_isSome v c hparse hstrict hmem
      (validateRouteErrs_ne_of_nogw r hs hg)
  · intro r hmem hg hnone
    exact validateConfig_err_isSome v c hparse hstrict hmem
      (validateRouteErrs_ne_of_badgw r hg hnone)
  · intro r hmem hd
    exact validateConfig_err_isSome v c hparse hstrict hmem
      (validateRouteErrs_ne_of_baddest r hd)

/-- C4 witness: the payload with a link-scope route without gateway and a
universe-scope route with one is accepted with a nil error. -/
theorem validateConfig_route_scope_gateway_witness :
    ValidateConfig (some ⟨some (.json linkScopeDoc)⟩) = (some linkScopeCfg, none) :=
  (validateConfig_route_scope_gateway linkScopeDoc linkScopeCfg rfl rfl).1.2
    (by decide) (by decide)

theorem mentionsField_foldl (es : List GoErr) (e : GoErr) (p : String)
    (h : e.mentionsField p = true ∨ ∃ q ∈ es, q.mentionsField p = true) :
    (es.foldl GoErr.comb e).mentionsField p = true := by
  induction es generalizing e with
  | nil =>
    rcases h with h | ⟨q, hq, _⟩
    · exact h
    · simp at hq
  | cons a rest ih =>
    apply ih
    rcases h with h | ⟨q, hq, hq2⟩
    · left
      show (GoErr.comb e a).mentionsField p = true
      unfold GoErr.mentionsField
      rw [h]
      rfl
    · rcases List.mem_cons.mp hq with heq | hq3
      · left
        subst heq
        show (GoErr.comb e q).mentionsField p = true
        unfold GoErr.mentionsField
        rw [hq2]
        simp
      · right
        exact ⟨q, hq3, hq2⟩

theorem filterMapUnknown_ne_nil (known : List String) (g : String → String)
    (fs : List (String × Json))
    (h : fs.any (fun kv => ¬ known.contains kv.1) = true) :
    fs.filterMap (fun kv => if known.contains kv.1 then none else some (g kv.1)) ≠ [] := by
  intro hcon
  rw [List.filterMap_eq_nil_iff] at hcon
  rw [List.any_eq_true] at h
  obtain ⟨kv, hkv, hunk⟩ := h
  rw [decide_eq_true_eq] at hunk
  have := hcon kv hkv
  rw [if_neg hunk] at this
  simp at this

theorem objUnknownPaths_ne_nil (pre : String) (known : List String) (j : Json)
    (h : objHasUnknownKey known j = true) : objUnknownPaths pre known j ≠ [] := by
  cases j with
  | obj fs => exact filterMapUnknown_ne_nil known (fun k => pre ++ k) fs h
  | null => simp [objHasUnknownKey] at h
  | bool b => simp [objHasUnknownKey] at h
  | num n => simp [objHasUnknownKey] at h
  | str s => simp [objHasUnknownKey] at h
  | arr es => simp [objHasUnknownKey] at h

theorem arrUnknownPathsFrom_ne_nil (base : String) (known : List String)
    (es : List Json) (h : es.any (objHasUnknownKey known) = true) :
    ∀ i, arrUnknownPathsFrom base known i es ≠ [] := by
  induction es with
  | nil => simp at h
  | cons e rest ih =>
    intro i hcon
    unfold arrUnknownPathsFrom at hcon
    rw [List.append_eq_nil] at hcon
    rw [List.any_cons] at h
    rcases (Bool.or_eq_true _ _).mp h with h1 | h1
    · exact objUnknownPaths_ne_nil _ _ _ h1 hcon.1
    · exact ih h1 (i + 1) hcon.2

theorem objFieldUnknownPaths_ne_nil (pre : String) (known : List String)
    (o : Option Json) (h : objFieldHasUnknownKey known o = true) :
    objFieldUnknownPaths pre known o ≠ [] := by
  cases o with
  | none => simp [objFieldHasUnknownKey] at h
  | some j => exact objUnknownPaths_ne_nil pre known j h

theorem arrFieldUnknownPaths_ne_nil (base : String) (known : List String)
    (o : Option Json) (h : arrFieldHasUnknownKey known o = true) :
    arrFieldUnknownPaths base known o ≠ [] := by
  cases o with
  | none => simp [arrFieldHasUnknownKey] at h
  | some j =>
    cases j with
    | arr es => exact arrUnknownPathsFrom_ne_nil base known es h 0
    | null => simp [arrFieldHasUnknownKey] at h
    | bool b => simp [arrFieldHasUnknownKey] at h
    | num n => simp [arrFieldHasUnknownKey] at h
    | str s => simp [arrFieldHasUnknownKey] at h
    | obj fs => simp [arrFieldHasUnknownKey] at h

theorem strictPaths_ne_nil {v : Json} (h : containsUnknownField v = true) :
    strictPaths v ≠ [] := by
  cases v with
  | obj fs =>
    intro hcon
    unfold strictPaths at hcon
    rw [List.append_eq_nil] at hcon
    obtain ⟨hcon, hF⟩ := hcon
    rw [List.append_eq_nil] at hcon
    obtain ⟨hcon, hE⟩ := hcon
    rw [List.append_eq_nil] at hcon
    obtain ⟨hcon, hD⟩ := hcon
    rw [List.append_eq_nil] at hcon
    obtain ⟨hcon, hC⟩ := hcon
    rw [List.append_eq_nil] at hcon
    obtain ⟨hA, hB⟩ := hcon
    unfold containsUnknownField at h
    rcases (Bool.or_eq_true _ _).mp h with h1 | h1
    rotate_left
    · exact objFieldUnknownPaths_ne_nil _ _ _ h1 hF
    rcases (Bool.or_eq_true _ _).mp h1 with h2 | h2
    rotate_left
    · exact arrFieldUnknownPaths_ne_nil _ _ _ h2 hE
    rcases (Bool.or_eq_true _ _).mp h2 with h3 | h3
    rotate_left
    · exact arrFieldUnknownPaths_ne_nil _ _ _ h3 hD
    rcases (Bool.or_eq_true _ _).mp h3 with h4 | h4
    rotate_left
    · exact arrFieldUnknownPaths_ne_nil _ _ _ h4 hC
    rcases (Bool.or_eq_true _ _).mp h4 with h5 | h5
    rotate_left
    · exact objFieldUnknownPaths_ne_nil _ _ _ h5 hB
    · exact filterMapUnknown_ne_nil knownTopKeys (fun k => k) fs h5 hA
  | null => simp [containsUnknownField] at h
  | bool b => simp [containsUnknownField] at h
  | num n => simp [containsUnknownField] at h
  | str s => simp [containsUnknownField] at h
  | arr es => simp [containsUnknownField] at h

/-- C6. For every payload that unmarshals but contains a field the schema
does not define, ValidateConfig fails strict parsing: it returns a nil
configuration and an error mentioning every unknown field path. -/
theorem validateConfig_unknown_field (v : Json) (c : NetworkConfig)
    (hparse : unmarshalNetworkConfig v = .ok c)
    (hunknown : containsUnknownField v = true) :
    (ValidateConfig (some ⟨some (.json v)⟩)).1 = none ∧
    strictPaths v ≠ [] ∧
    (∀ p ∈ strictPaths v,
      errMentions (ValidateConfig (some ⟨some (.json v)⟩)).2 p = true) := by
  have hne := strictPaths_ne_nil hunknown
  cases hsp : strictPaths v with
  | nil => exact absurd hsp hne
  | cons p ps =>
    have heval : ValidateConfig (some ⟨some (.json v)⟩) =
        (none, some (.wrap "failed to unmarshal strict JSON data"
          ((ps.map GoErr.unknownField).foldl GoErr.comb (GoErr.unknownField p)))) := by
      simp only [ValidateConfig, hparse, hsp]
    refine ⟨by rw [heval], List.cons_ne_nil p ps, ?_⟩
    intro q hq
    rw [heval]
    show ((ps.map GoErr.unknownField).foldl GoErr.comb
      (GoErr.unknownField p)).mentionsField q = true
    apply mentionsField_foldl
    rcases List.mem_cons.mp hq with heq | hq2
    · left
      subst heq
      simp [GoErr.mentionsField]
    · right
      refine ⟨GoErr.unknownField q, List.mem_map_of_mem _ hq2, ?_⟩
      simp [GoErr.mentionsField]

/-- C6 witness: the payload with the misspelled field gateways in its first
route is rejected with a nil configuration and an error mentioning the path
routes[0].gateways. -/
theorem validateConfig_unknown_field_witness :
    (ValidateConfig (some ⟨some (.json unknownFieldDoc)⟩)).1 = none ∧
    errMentions (ValidateConfig (some ⟨some (.json unknownFieldDoc)⟩)).2
      "routes[0].gateways" = true := by
  have h := validateConfig_unknown_field unknownFieldDoc unknownFieldCfg rfl (by decide)
  exact ⟨h.1, h.2.2 "routes[0].gateways" (by decide)⟩

end DraNet
